import Mathlib

/-!
# Verification of the blaster dispatch core

A shallow embedding of the fan-out/fan-in dispatch engine of the `blaster`
browser extension, together with proofs about its behaviour.

The embedding follows the TypeScript source:

* `src/background/query-orchestrator.ts` (`QueryOrchestrator`): session map,
  `submitQuery`, `handleResponseReceived`, `handleResponseError`,
  `checkSessionComplete`, `saveQueryToHistory` / `saveToHistory`.
* `src/background/tab-manager.ts` (`TabManager`): managed-tab registry,
  `ensureProviderTab`, `onTabRemoved`.
* `src/shared/constants/providers.ts` (`PROVIDERS`, `getProviderFromUrl`):
  the URL-pattern matcher built via
  `new RegExp('^' + pattern.replace(/\*/g, '.*') + '$')`.

JavaScript `Map`s are embedded as association lists preserving insertion
order (`Map.set` replaces in place, `Map.delete` removes one entry).  The
`responses` object of a session (keyed by the three-valued `ProviderId`) is
embedded as a function `ProviderId → Option QueryResponse`.  JavaScript
truthiness of optional strings (`r?.error`, tab ids, the `limit` option) is
embedded explicitly wherever the source relies on it.  Asynchronous effects
that do not touch the component's own state (DOM messaging, broadcast
notifications, the `stats` counter) are not modelled; the environment the
Chrome APIs provide to `ensureProviderTab` is passed in as an explicit
oracle record.
-/

/-- The provider identifiers, from `src/shared/types/providers.ts`:
`type ProviderId = 'chatgpt' | 'claude' | 'gemini'`. -/
inductive ProviderId where
  | chatgpt
  | claude
  | gemini
deriving DecidableEq, Repr

/-- Enumeration of all provider ids, in the source's declaration order
(`PROVIDER_IDS` in `src/shared/constants/providers.ts`). -/
def PROVIDER_IDS : List ProviderId := [.chatgpt, .claude, .gemini]

theorem mem_PROVIDER_IDS (p : ProviderId) : p ∈ PROVIDER_IDS := by
  cases p <;> simp [PROVIDER_IDS]

/-- Embeds `interface Query` from `src/shared/types/query.ts`. -/
structure Query where
  id : String
  text : String
  timestamp : Nat
  providers : List ProviderId
deriving DecidableEq, Repr

/-- Embeds `interface QueryResponse` from `src/shared/types/query.ts`; the optional
`error?: string` field is an `Option String`. -/
structure QueryResponse where
  queryId : String
  providerId : ProviderId
  text : String
  timestamp : Nat
  durationMs : Nat
  error : Option String := none
deriving DecidableEq, Repr

/-- The `status` field of `QuerySession`. -/
inductive SessionStatus where
  | pending
  | inProgress
  | completed
  | error
deriving DecidableEq, Repr

/-- Embeds `interface QuerySession` from `src/shared/types/query.ts`.  The
`responses: Partial<Record<ProviderId, QueryResponse>>` object is embedded
as a function on the finite key type. -/
structure QuerySession where
  query : Query
  responses : ProviderId → Option QueryResponse
  status : SessionStatus

/-- JavaScript truthiness of the optional `error` string: `r?.error` is
truthy exactly when the field is present and non-empty. -/
def errTruthy : Option String → Bool
  | some s => s != ""
  | none => false

/-- Upsert into the `responses` object:
`session.responses[providerId] = response`. -/
def setResponse (rs : ProviderId → Option QueryResponse) (p : ProviderId)
    (r : QueryResponse) : ProviderId → Option QueryResponse :=
  fun q => if q = p then some r else rs q

/-- Embeds `session.query.providers.every((p) => session.responses[p] !== undefined)`
in `checkSessionComplete`. -/
def allReceived (s : QuerySession) : Bool :=
  s.query.providers.all (fun p => (s.responses p).isSome)

/-- Embeds `Object.values(session.responses).some((r) => r?.error)` in
`checkSessionComplete`: some present response entry has a truthy `error`. -/
def hasErrors (s : QuerySession) : Bool :=
  PROVIDER_IDS.any (fun p =>
    match s.responses p with
    | some r => errTruthy r.error
    | none => false)

/-- The body of `QueryOrchestrator.checkSessionComplete` acting on one
session: if every target provider has a response entry, set the status to
`error` when some entry has a truthy error and to `completed` otherwise. -/
def completeCheck (s : QuerySession) : QuerySession :=
  if allReceived s then
    { s with status := if hasErrors s then .error else .completed }
  else s

/-- The orchestrator's `activeSessions = new Map<string, QuerySession>()`,
as an association list in insertion order. -/
abbrev OrchState := List (String × QuerySession)

/-- Embeds `this.activeSessions.get(queryId)`. -/
def sessGet (st : OrchState) (qid : String) : Option QuerySession :=
  (st.find? (fun e => e.1 = qid)).map (·.2)

/-- Embeds `this.activeSessions.set(queryId, session)`: replace in place if the key
is present (JavaScript `Map.set` keeps insertion order), else append. -/
def sessSet : OrchState → String → QuerySession → OrchState
  | [], qid, s => [(qid, s)]
  | e :: rest, qid, s =>
    if e.1 = qid then (qid, s) :: rest else e :: sessSet rest qid s

/-- Embeds `QueryOrchestrator.checkSessionComplete(queryId)`: look the session up;
absent ⇒ no-op; otherwise run the completion check on it. -/
def checkSessionComplete (st : OrchState) (qid : String) : OrchState :=
  match sessGet st qid with
  | none => st
  | some s => sessSet st qid (completeCheck s)

/-- Embeds `QueryOrchestrator.handleResponseReceived(queryId, providerId, text,
durationMs)`.  `now` stands for the `Date.now()` stamp taken when the
response object is built.  An unknown `queryId` is silently ignored;
otherwise the response is upserted and the completion check re-run.  (The
`saveResponseToHistory` write and the update broadcast do not touch the
session map and are not modelled.) -/
def handleResponseReceived (st : OrchState) (qid : String) (p : ProviderId)
    (text : String) (now durationMs : Nat) : OrchState :=
  match sessGet st qid with
  | none => st
  | some s =>
    let resp : QueryResponse :=
      { queryId := qid, providerId := p, text := text, timestamp := now,
        durationMs := durationMs, error := none }
    checkSessionComplete
      (sessSet st qid { s with responses := setResponse s.responses p resp }) qid

/-- Embeds `QueryOrchestrator.handleResponseError(queryId, providerId, error)`:
like `handleResponseReceived` but the stored response has empty `text`,
`durationMs` 0 and the given `error` string. -/
def handleResponseError (st : OrchState) (qid : String) (p : ProviderId)
    (err : String) (now : Nat) : OrchState :=
  match sessGet st qid with
  | none => st
  | some s =>
    let resp : QueryResponse :=
      { queryId := qid, providerId := p, text := "", timestamp := now,
        durationMs := 0, error := some err }
    checkSessionComplete
      (sessSet st qid { s with responses := setResponse s.responses p resp }) qid

/-! ## Association-list lemmas for the session map -/

theorem sessGet_sessSet_self (st : OrchState) (qid : String) (s : QuerySession) :
    sessGet (sessSet st qid s) qid = some s := by
  induction st with
  | nil => simp [sessSet, sessGet, List.find?]
  | cons e rest ih =>
    by_cases h : e.1 = qid
    · simp [sessSet, h, sessGet, List.find?]
    · simp only [sessSet, if_neg h]
      simpa [sessGet, List.find?, h] using ih

theorem sessGet_sessSet_ne (st : OrchState) (qid qid' : String)
    (s : QuerySession) (h : qid' ≠ qid) :
    sessGet (sessSet st qid s) qid' = sessGet st qid' := by
  have h' : ¬(qid = qid') := fun hh => h hh.symm
  induction st with
  | nil => simp [sessSet, sessGet, List.find?, h']
  | cons e rest ih =>
    by_cases he : e.1 = qid
    · have he2 : ¬(e.1 = qid') := by rw [he]; exact h'
      simp [sessSet, he, sessGet, List.find?, h', he2]
    · by_cases he2 : e.1 = qid'
      · simp [sessSet, he, sessGet, List.find?, he2, h]
      · simp only [sessSet, if_neg he]
        simpa [sessGet, List.find?, he2] using ih

theorem sessSet_sessSet (st : OrchState) (qid : String) (s t : QuerySession) :
    sessSet (sessSet st qid s) qid t = sessSet st qid t := by
  induction st with
  | nil => simp [sessSet]
  | cons e rest ih =>
    by_cases h : e.1 = qid
    · simp [sessSet, h]
    · simp [sessSet, h, ih]

/-! ## The submit pipeline (`QueryOrchestrator.submitQuery`) -/

/-- The session constructed at the top of `submitQuery`:
`{ query, responses: {}, status: 'in-progress' }`. -/
def mkSession (qid text : String) (now : Nat) (providers : List ProviderId) :
    QuerySession :=
  { query := { id := qid, text := text, timestamp := now, providers := providers },
    responses := fun _ => none,
    status := .inProgress }

/-- The synchronous part of `submitQuery`: build the query and session,
register the session under the query id, and return it (the promise the
caller gets resolves with exactly this session).  `generateId()` and
`Date.now()` are passed in as `qid` and `now`. -/
def submitQueryStart (st : OrchState) (qid text : String) (now : Nat)
    (providers : List ProviderId) : OrchState × QuerySession :=
  let s := mkSession qid text now providers
  (sessSet st qid s, s)

/-- What a per-provider launch leg can throw (`catch (error)` in
`submitQuery`): either a JavaScript `Error` with a message, or any other
throwable value. -/
inductive Thrown where
  | jsError (message : String)
  | other
deriving DecidableEq, Repr

/-- Embeds `error instanceof Error ? error.message : 'Unknown error'`. -/
def thrownMessage : Thrown → String
  | .jsError m => m
  | .other => "Unknown error"

/-- The synthetic failed response built in the `catch` branch of a leg:
`{ queryId, providerId, text: '', timestamp: Date.now(), durationMs: 0,
error: … }`. -/
def legErrorResponse (qid : String) (p : ProviderId) (now : Nat)
    (t : Thrown) : QueryResponse :=
  { queryId := qid, providerId := p, text := "", timestamp := now,
    durationMs := 0, error := some (thrownMessage t) }

/-- The `catch` branch of one leg: write the synthetic failed response into
the session's `responses` object (`session.responses[providerId] =
errorResponse`).  The history write and broadcast are not modelled. -/
def recordLegFailure (st : OrchState) (qid : String) (p : ProviderId)
    (now : Nat) (t : Thrown) : OrchState :=
  match sessGet st qid with
  | none => st
  | some s =>
    sessSet st qid
      { s with responses := setResponse s.responses p (legErrorResponse qid p now t) }

/-- The launch phase `providers.map(async (providerId) => { try … catch … })`
once every leg has settled.  `outcome p = some t` means leg `p`'s
`submitToProvider` threw `t` (tab acquisition, readiness wait or message
forwarding failed); `outcome p = none` means it was forwarded successfully
(its reply, if any, arrives later through `handleResponseReceived`).  Each
leg only writes its own provider's key, so the sequential fold over the
provider list has the same effect as the concurrent legs. -/
def runSubmissions (st : OrchState) (qid : String) (now : Nat)
    (providers : List ProviderId) (outcome : ProviderId → Option Thrown) :
    OrchState :=
  providers.foldl
    (fun acc p =>
      match outcome p with
      | some t => recordLegFailure acc qid p now t
      | none => acc) st

/-- Runs `submitQuery` followed by the settling of all launch legs:
`Promise.all(submissions).then(() => this.checkSessionComplete(query.id))`. -/
def submitQuerySettled (st : OrchState) (qid text : String) (now : Nat)
    (providers : List ProviderId) (outcome : ProviderId → Option Thrown) :
    OrchState :=
  checkSessionComplete
    (runSubmissions (submitQueryStart st qid text now providers).1 qid now
      providers outcome) qid

/-! ## Query-history storage (`saveToHistory` / `saveQueryToHistory`) -/

/-- The generic storage helper `QueryOrchestrator.saveToHistory`: read the
stored list, `unshift` (prepend) or `push` (append) the item, and trim with
`items.slice(0, limit)` — but only when `options?.limit` is truthy, so a
limit of `0` does not trim. -/
def saveToHistory {α : Type} (stored : List α) (item : α) (prepend : Bool)
    (limit : Option Nat) : List α :=
  let items := if prepend then item :: stored else stored ++ [item]
  match limit with
  | some n => if n = 0 then items else items.take n
  | none => items

/-- Embeds `STORAGE_LIMITS.QUERY_HISTORY` from `src/shared/constants/timeouts.ts`. -/
def QUERY_HISTORY : Nat := 100

/-- Embeds `QueryOrchestrator.saveQueryToHistory`: prepend the new query to the
stored `queries` list and keep only the first `QUERY_HISTORY` entries.
(The other source variant inlines the same computation as
`queries.unshift(query); queries.slice(0, 100)`; its additional
`stats.totalQueries` counter does not touch the `queries` list and is not
modelled.) -/
def saveQueryToHistory (stored : List Query) (q : Query) : List Query :=
  saveToHistory stored q true (some QUERY_HISTORY)

/-! ## Specification-side predicates

These follow the specification's vocabulary and are related to the
executable definitions above by the lemmas that follow. -/

/-- The session is in a terminal state. -/
def Terminal (s : QuerySession) : Prop :=
  s.status = .completed ∨ s.status = .error

instance (s : QuerySession) : Decidable (Terminal s) := by
  unfold Terminal; infer_instance

/-- The spec's all-received condition: `responses` contains one entry for
every id in the query's target-provider list. -/
def AllReceivedP (s : QuerySession) : Prop :=
  ∀ p ∈ s.query.providers, (s.responses p).isSome = true

instance (s : QuerySession) : Decidable (AllReceivedP s) := by
  unfold AllReceivedP; infer_instance

/-- Some response entry of the session carries a non-empty error string. -/
def HasNonemptyError (s : QuerySession) : Prop :=
  ∃ p r, s.responses p = some r ∧ r.error ≠ none ∧ r.error ≠ some ""

theorem allReceived_iff (s : QuerySession) :
    allReceived s = true ↔ AllReceivedP s := by
  unfold allReceived AllReceivedP
  simp [List.all_eq_true]

theorem hasErrors_iff (s : QuerySession) :
    hasErrors s = true ↔ HasNonemptyError s := by
  unfold hasErrors HasNonemptyError
  rw [List.any_eq_true]
  constructor
  · rintro ⟨p, -, hp⟩
    rcases hr : s.responses p with _ | r
    · rw [hr] at hp; simp at hp
    · rw [hr] at hp
      have hp' : errTruthy r.error = true := hp
      rcases he : r.error with _ | e
      · rw [he] at hp'; simp [errTruthy] at hp'
      · rw [he] at hp'
        simp only [errTruthy, bne_iff_ne, ne_eq] at hp'
        exact ⟨p, r, hr, by simp [he], by simp [he, hp']⟩
  · rintro ⟨p, r, hpr, hne, hne'⟩
    refine ⟨p, mem_PROVIDER_IDS p, ?_⟩
    rw [hpr]
    rcases he : r.error with _ | e
    · exact absurd he hne
    · have h2 : e ≠ "" := fun hh => hne' (by rw [he, hh])
      simp [errTruthy, he, h2]

/-! ## Small frame lemmas about the completion check and upserts -/

theorem completeCheck_responses (s : QuerySession) :
    (completeCheck s).responses = s.responses := by
  unfold completeCheck; split <;> rfl

theorem completeCheck_query (s : QuerySession) :
    (completeCheck s).query = s.query := by
  unfold completeCheck; split <;> rfl

theorem setResponse_isSome (rs : ProviderId → Option QueryResponse)
    (p q : ProviderId) (r : QueryResponse) (h : (rs q).isSome = true) :
    ((setResponse rs p r) q).isSome = true := by
  unfold setResponse
  split <;> simp [h]

/-- Upserting a response preserves the all-received condition. -/
theorem allReceived_setResponse (s : QuerySession) (p : ProviderId)
    (r : QueryResponse) (h : allReceived s = true) :
    allReceived { s with responses := setResponse s.responses p r } = true := by
  rw [allReceived_iff] at h ⊢
  intro q hq
  exact setResponse_isSome _ _ _ _ (h q hq)

theorem allReceived_completeCheck (s : QuerySession) :
    allReceived (completeCheck s) = allReceived s := by
  unfold allReceived
  rw [completeCheck_responses, completeCheck_query]

theorem hasErrors_completeCheck (s : QuerySession) :
    hasErrors (completeCheck s) = hasErrors s := by
  unfold hasErrors
  rw [completeCheck_responses]

/-- Reduction of `handleResponseReceived` on a tracked session: upsert the
freshly built response, then run the completion check on the result. -/
theorem handleResponseReceived_tracked (st : OrchState) (qid : String)
    (p : ProviderId) (text : String) (now dur : Nat) (s : QuerySession)
    (h : sessGet st qid = some s) :
    handleResponseReceived st qid p text now dur =
      sessSet st qid (completeCheck
        { s with responses :=
            setResponse s.responses p ⟨qid, p, text, now, dur, none⟩ }) := by
  unfold handleResponseReceived checkSessionComplete
  rw [h]
  simp only [sessGet_sessSet_self, sessSet_sessSet]

/-- Reduction of `handleResponseError` on a tracked session. -/
theorem handleResponseError_tracked (st : OrchState) (qid : String)
    (p : ProviderId) (err : String) (now : Nat) (s : QuerySession)
    (h : sessGet st qid = some s) :
    handleResponseError st qid p err now =
      sessSet st qid (completeCheck
        { s with responses :=
            setResponse s.responses p ⟨qid, p, "", now, 0, some err⟩ }) := by
  unfold handleResponseError checkSessionComplete
  rw [h]
  simp only [sessGet_sessSet_self, sessSet_sessSet]

/-- Behaviour of one record call on the session it addresses: upsert a
response `r`, then run the completion check.  Provided the pre-state
satisfies the reachability invariant "terminal implies all-received", the
post-state is terminal exactly when all target providers have entries, and
a terminal status is `error` or `completed` according to whether some entry
carries a non-empty error. -/
theorem record_post_spec (s : QuerySession) (p : ProviderId)
    (r : QueryResponse) (hinv : Terminal s → AllReceivedP s) :
    (Terminal (completeCheck { s with responses := setResponse s.responses p r }) ↔
      AllReceivedP (completeCheck { s with responses := setResponse s.responses p r })) ∧
    (AllReceivedP (completeCheck { s with responses := setResponse s.responses p r }) →
      ((completeCheck { s with responses := setResponse s.responses p r }).status = .error ↔
          HasNonemptyError (completeCheck { s with responses := setResponse s.responses p r })) ∧
      ((completeCheck { s with responses := setResponse s.responses p r }).status = .completed ↔
          ¬ HasNonemptyError (completeCheck { s with responses := setResponse s.responses p r }))) := by
  set u : QuerySession := { s with responses := setResponse s.responses p r } with hu
  have hARfix : AllReceivedP (completeCheck u) ↔ allReceived u = true := by
    rw [← allReceived_iff, allReceived_completeCheck]
  have hHEfix : HasNonemptyError (completeCheck u) ↔ hasErrors u = true := by
    rw [← hasErrors_iff, hasErrors_completeCheck]
  by_cases har : allReceived u = true
  · have hcc : completeCheck u =
        { u with status := if hasErrors u then .error else .completed } := by
      unfold completeCheck
      rw [if_pos har]
    constructor
    · rw [hARfix]
      simp only [har, iff_true]
      rw [hcc]
      by_cases hhe : hasErrors u = true
      · simp [Terminal, hhe]
      · simp only [Bool.not_eq_true] at hhe
        simp [Terminal, hhe]
    · intro _
      constructor
      · rw [hHEfix, hcc]
        by_cases hhe : hasErrors u = true
        · simp [hhe]
        · simp only [Bool.not_eq_true] at hhe
          simp [hhe]
      · rw [hHEfix, hcc]
        by_cases hhe : hasErrors u = true
        · simp [hhe]
        · simp only [Bool.not_eq_true] at hhe
          simp [hhe]
  · have hcc : completeCheck u = u := by
      unfold completeCheck
      rw [if_neg har]
    have hnotTermU : ¬ Terminal u := by
      intro ht
      -- `u` has the same status as `s`, so `s` would be terminal,
      -- hence all-received, hence `u` would be all-received.
      have hts : Terminal s := ht
      have := (allReceived_iff s).mpr (hinv hts)
      exact har (allReceived_setResponse s p r this)
    constructor
    · rw [hARfix, hcc]
      exact iff_of_false hnotTermU har
    · rw [hARfix, hcc]
      intro hcontra
      exact absurd hcontra har

theorem setResponse_self (rs : ProviderId → Option QueryResponse)
    (p : ProviderId) (r : QueryResponse) : setResponse rs p r p = some r := by
  simp [setResponse]

theorem setResponse_ne (rs : ProviderId → Option QueryResponse)
    (p q : ProviderId) (r : QueryResponse) (h : q ≠ p) :
    setResponse rs p r q = rs q := by
  simp [setResponse, h]

/-- C1 — Fan-in transition rule, as corrected.  For a tracked session
satisfying the reachability invariant "terminal implies all-received",
after a `handleResponseReceived` or `handleResponseError` call addressed to
it, the session's status is terminal exactly when `responses` contains one
entry for every provider of `query.providers`; when that holds, the status
is `error` exactly when some response entry carries a **non-empty** error
string, and `completed` otherwise.  (The claim's "carries an error" fails
for the empty error string, see the counterexample.) -/
theorem c1_fanin_transition (st : OrchState) (qid : String) (p : ProviderId)
    (text err : String) (now dur : Nat) (s : QuerySession)
    (h : sessGet st qid = some s) (hinv : Terminal s → AllReceivedP s) :
    (∃ s1, sessGet (handleResponseReceived st qid p text now dur) qid = some s1 ∧
      (Terminal s1 ↔ AllReceivedP s1) ∧
      (AllReceivedP s1 →
        (s1.status = .error ↔ HasNonemptyError s1) ∧
        (s1.status = .completed ↔ ¬ HasNonemptyError s1))) ∧
    (∃ s2, sessGet (handleResponseError st qid p err now) qid = some s2 ∧
      (Terminal s2 ↔ AllReceivedP s2) ∧
      (AllReceivedP s2 →
        (s2.status = .error ↔ HasNonemptyError s2) ∧
        (s2.status = .completed ↔ ¬ HasNonemptyError s2))) := by
  constructor
  · rw [handleResponseReceived_tracked st qid p text now dur s h]
    refine ⟨_, sessGet_sessSet_self _ _ _, ?_⟩
    exact record_post_spec s p _ hinv
  · rw [handleResponseError_tracked st qid p err now s h]
    refine ⟨_, sessGet_sessSet_self _ _ _, ?_⟩
    exact record_post_spec s p _ hinv

/-- Witness for `c1_fanin_transition` at a concrete tracked session. -/
theorem c1_fanin_transition_witness :
    (∃ s1, sessGet (handleResponseReceived
        [("q1", mkSession "q1" "hi" 0 [ProviderId.chatgpt])]
        "q1" ProviderId.chatgpt "ok" 3 7) "q1" = some s1 ∧
      (Terminal s1 ↔ AllReceivedP s1) ∧
      (AllReceivedP s1 →
        (s1.status = .error ↔ HasNonemptyError s1) ∧
        (s1.status = .completed ↔ ¬ HasNonemptyError s1))) ∧
    (∃ s2, sessGet (handleResponseError
        [("q1", mkSession "q1" "hi" 0 [ProviderId.chatgpt])]
        "q1" ProviderId.chatgpt "boom" 3) "q1" = some s2 ∧
      (Terminal s2 ↔ AllReceivedP s2) ∧
      (AllReceivedP s2 →
        (s2.status = .error ↔ HasNonemptyError s2) ∧
        (s2.status = .completed ↔ ¬ HasNonemptyError s2))) :=
  c1_fanin_transition [("q1", mkSession "q1" "hi" 0 [ProviderId.chatgpt])]
    "q1" ProviderId.chatgpt "ok" "boom" 3 7
    (mkSession "q1" "hi" 0 [ProviderId.chatgpt]) rfl
    (fun ht => absurd ht (by decide))

/-- C1 counterexample to the claim as stated: record a failure whose error
string is empty.  The stored entry carries an error (`error = some ""`),
every target provider has an entry, yet — because `r?.error` is falsy for
the empty string — the session's status becomes `completed`, not `error`. -/
theorem c1_counterexample :
    ((sessGet (handleResponseError
        (submitQueryStart [] "q1" "hi" 0 [ProviderId.chatgpt]).1
        "q1" ProviderId.chatgpt "" 5) "q1").map
      (fun s => ((s.responses ProviderId.chatgpt).map QueryResponse.error,
        s.status))) =
      some (some (some ""), SessionStatus.completed) ∧
    SessionStatus.completed ≠ SessionStatus.error := by
  exact ⟨rfl, by decide⟩

/-- C2 — Completion monotonicity, as corrected.  Once a tracked session is
terminal (`completed` or `error`, with every target provider answered), a
later record call carrying its query id is still handled without failure
and the session stays terminal — but it is **not** a no-op: the call
overwrites that provider's response entry (leaving the other entries
unchanged) and re-derives `error` vs `completed` from the updated entries,
so the terminal status can flip. -/
theorem c2_terminal_record_behaviour (st : OrchState) (qid : String)
    (p : ProviderId) (text err : String) (now dur : Nat) (s : QuerySession)
    (h : sessGet st qid = some s) (hterm : Terminal s) (har : AllReceivedP s) :
    (∃ s1, sessGet (handleResponseReceived st qid p text now dur) qid = some s1 ∧
      Terminal s1 ∧
      s1.responses p = some ⟨qid, p, text, now, dur, none⟩ ∧
      (∀ q, q ≠ p → s1.responses q = s.responses q) ∧
      (s1.status = .error ↔ HasNonemptyError s1)) ∧
    (∃ s2, sessGet (handleResponseError st qid p err now) qid = some s2 ∧
      Terminal s2 ∧
      s2.responses p = some ⟨qid, p, "", now, 0, some err⟩ ∧
      (∀ q, q ≠ p → s2.responses q = s.responses q) ∧
      (s2.status = .error ↔ HasNonemptyError s2)) := by
  have hinv : Terminal s → AllReceivedP s := fun _ => har
  constructor
  · rw [handleResponseReceived_tracked st qid p text now dur s h]
    refine ⟨_, sessGet_sessSet_self _ _ _, ?_, ?_, ?_, ?_⟩
    · have hspec := record_post_spec s p ⟨qid, p, text, now, dur, none⟩ hinv
      refine hspec.1.mpr ?_
      rw [← allReceived_iff, allReceived_completeCheck]
      exact allReceived_setResponse s p _ ((allReceived_iff s).mpr har)
    · rw [completeCheck_responses]
      exact setResponse_self _ _ _
    · intro q hq
      rw [completeCheck_responses]
      exact setResponse_ne _ _ _ _ hq
    · have hspec := record_post_spec s p ⟨qid, p, text, now, dur, none⟩ hinv
      refine (hspec.2 ?_).1
      rw [← allReceived_iff, allReceived_completeCheck]
      exact allReceived_setResponse s p _ ((allReceived_iff s).mpr har)
  · rw [handleResponseError_tracked st qid p err now s h]
    refine ⟨_, sessGet_sessSet_self _ _ _, ?_, ?_, ?_, ?_⟩
    · have hspec := record_post_spec s p ⟨qid, p, "", now, 0, some err⟩ hinv
      refine hspec.1.mpr ?_
      rw [← allReceived_iff, allReceived_completeCheck]
      exact allReceived_setResponse s p _ ((allReceived_iff s).mpr har)
    · rw [completeCheck_responses]
      exact setResponse_self _ _ _
    · intro q hq
      rw [completeCheck_responses]
      exact setResponse_ne _ _ _ _ hq
    · have hspec := record_post_spec s p ⟨qid, p, "", now, 0, some err⟩ hinv
      refine (hspec.2 ?_).1
      rw [← allReceived_iff, allReceived_completeCheck]
      exact allReceived_setResponse s p _ ((allReceived_iff s).mpr har)

/-- Witness for `c2_terminal_record_behaviour` at a concrete completed
session. -/
theorem c2_terminal_record_behaviour_witness :
    (∃ s1, sessGet (handleResponseReceived
        [("q2", { query := { id := "q2", text := "t", timestamp := 0,
                             providers := [ProviderId.chatgpt] },
                  responses := setResponse (fun _ => none) ProviderId.chatgpt
                    ⟨"q2", ProviderId.chatgpt, "fine", 1, 7, none⟩,
                  status := .completed })]
        "q2" ProviderId.chatgpt "again" 9 2) "q2" = some s1 ∧
      Terminal s1 ∧
      s1.responses ProviderId.chatgpt =
        some ⟨"q2", ProviderId.chatgpt, "again", 9, 2, none⟩ ∧
      (∀ q, q ≠ ProviderId.chatgpt →
        s1.responses q =
          ({ query := { id := "q2", text := "t", timestamp := 0,
                        providers := [ProviderId.chatgpt] },
             responses := setResponse (fun _ => none) ProviderId.chatgpt
               ⟨"q2", ProviderId.chatgpt, "fine", 1, 7, none⟩,
             status := .completed } : QuerySession).responses q) ∧
      (s1.status = .error ↔ HasNonemptyError s1)) ∧
    (∃ s2, sessGet (handleResponseError
        [("q2", { query := { id := "q2", text := "t", timestamp := 0,
                             providers := [ProviderId.chatgpt] },
                  responses := setResponse (fun _ => none) ProviderId.chatgpt
                    ⟨"q2", ProviderId.chatgpt, "fine", 1, 7, none⟩,
                  status := .completed })]
        "q2" ProviderId.chatgpt "late failure" 9) "q2" = some s2 ∧
      Terminal s2 ∧
      s2.responses ProviderId.chatgpt =
        some ⟨"q2", ProviderId.chatgpt, "", 9, 0, some "late failure"⟩ ∧
      (∀ q, q ≠ ProviderId.chatgpt →
        s2.responses q =
          ({ query := { id := "q2", text := "t", timestamp := 0,
                        providers := [ProviderId.chatgpt] },
             responses := setResponse (fun _ => none) ProviderId.chatgpt
               ⟨"q2", ProviderId.chatgpt, "fine", 1, 7, none⟩,
             status := .completed } : QuerySession).responses q) ∧
      (s2.status = .error ↔ HasNonemptyError s2)) :=
  c2_terminal_record_behaviour _ "q2" ProviderId.chatgpt "again" "late failure"
    9 2 _ rfl (Or.inl rfl) (by decide)

/-- C2 counterexample to the claim as stated: drive a session to
`completed` through the model's own operations, then deliver a late
`handleResponseError` for the same pair.  The status flips from `completed`
to `error` and the stored response entry changes — the late message is not
a no-op. -/
theorem c2_counterexample :
    ((sessGet (handleResponseReceived
        (submitQueryStart [] "q2" "t" 0 [ProviderId.chatgpt]).1
        "q2" ProviderId.chatgpt "fine" 1 7) "q2").map QuerySession.status) =
      some SessionStatus.completed ∧
    ((sessGet (handleResponseError
        (handleResponseReceived
          (submitQueryStart [] "q2" "t" 0 [ProviderId.chatgpt]).1
          "q2" ProviderId.chatgpt "fine" 1 7)
        "q2" ProviderId.chatgpt "boom" 9) "q2").map
      (fun s => (s.status,
        (s.responses ProviderId.chatgpt).map QueryResponse.error))) =
      some (SessionStatus.error, some (some "boom")) ∧
    SessionStatus.error ≠ SessionStatus.completed := by
  exact ⟨rfl, rfl, by decide⟩

/-- C3 — Unknown-session late message is a silent no-op: when no session is
tracked under `queryId`, `handleResponseReceived` and `handleResponseError`
return the session map unchanged (in particular no phantom session is
created, and both functions are total, so nothing is thrown). -/
theorem c3_unknown_session_noop (st : OrchState) (qid : String)
    (p : ProviderId) (text err : String) (now dur : Nat)
    (h : sessGet st qid = none) :
    handleResponseReceived st qid p text now dur = st ∧
    handleResponseError st qid p err now = st := by
  unfold handleResponseReceived handleResponseError
  rw [h]
  exact ⟨rfl, rfl⟩

/-- Witness for `c3_unknown_session_noop`: a late message for an unknown id
on a map tracking one other session. -/
theorem c3_unknown_session_noop_witness :
    handleResponseReceived [("q4", mkSession "q4" "t" 0 [ProviderId.gemini])]
      "gone" ProviderId.claude "x" 1 2 =
      [("q4", mkSession "q4" "t" 0 [ProviderId.gemini])] ∧
    handleResponseError [("q4", mkSession "q4" "t" 0 [ProviderId.gemini])]
      "gone" ProviderId.claude "y" 3 =
      [("q4", mkSession "q4" "t" 0 [ProviderId.gemini])] :=
  c3_unknown_session_noop [("q4", mkSession "q4" "t" 0 [ProviderId.gemini])]
    "gone" ProviderId.claude "x" "y" 1 2 rfl

/-- C8 — Last-write-wins upsert: recording against a `(queryId, providerId)`
pair that already has a response entry replaces that entry with the newly
constructed response. -/
theorem c8_last_write_wins (st : OrchState) (qid : String) (p : ProviderId)
    (r0 : QueryResponse) (text err : String) (now dur : Nat) (s : QuerySession)
    (h : sessGet st qid = some s) (hr0 : s.responses p = some r0) :
    (∃ s1, sessGet (handleResponseReceived st qid p text now dur) qid = some s1 ∧
      s1.responses p = some ⟨qid, p, text, now, dur, none⟩) ∧
    (∃ s2, sessGet (handleResponseError st qid p err now) qid = some s2 ∧
      s2.responses p = some ⟨qid, p, "", now, 0, some err⟩) := by
  constructor
  · rw [handleResponseReceived_tracked st qid p text now dur s h]
    refine ⟨_, sessGet_sessSet_self _ _ _, ?_⟩
    rw [completeCheck_responses]
    exact setResponse_self _ _ _
  · rw [handleResponseError_tracked st qid p err now s h]
    refine ⟨_, sessGet_sessSet_self _ _ _, ?_⟩
    rw [completeCheck_responses]
    exact setResponse_self _ _ _

/-- Witness for `c8_last_write_wins` at a session that already holds a
response for the pair being recorded. -/
theorem c8_last_write_wins_witness :
    (∃ s1, sessGet (handleResponseReceived
        [("q8", { query := { id := "q8", text := "t", timestamp := 0,
                             providers := [ProviderId.claude] },
                  responses := setResponse (fun _ => none) ProviderId.claude
                    ⟨"q8", ProviderId.claude, "first", 1, 5, none⟩,
                  status := .inProgress })]
        "q8" ProviderId.claude "second" 4 6) "q8" = some s1 ∧
      s1.responses ProviderId.claude =
        some ⟨"q8", ProviderId.claude, "second", 4, 6, none⟩) ∧
    (∃ s2, sessGet (handleResponseError
        [("q8", { query := { id := "q8", text := "t", timestamp := 0,
                             providers := [ProviderId.claude] },
                  responses := setResponse (fun _ => none) ProviderId.claude
                    ⟨"q8", ProviderId.claude, "first", 1, 5, none⟩,
                  status := .inProgress })]
        "q8" ProviderId.claude "failed" 4) "q8" = some s2 ∧
      s2.responses ProviderId.claude =
        some ⟨"q8", ProviderId.claude, "", 4, 0, some "failed"⟩) :=
  c8_last_write_wins _ "q8" ProviderId.claude
    ⟨"q8", ProviderId.claude, "first", 1, 5, none⟩ "second" "failed" 4 6 _
    rfl rfl

/-- Effect of the settled launch phase on the session it addresses: the
status and query are untouched, and each provider's entry is the synthetic
failed response exactly when that provider's leg threw — independent of
every other leg's outcome. -/
theorem runSubmissions_spec (qid : String) (now : Nat)
    (outcome : ProviderId → Option Thrown) :
    ∀ (provs : List ProviderId) (st : OrchState) (s : QuerySession),
    sessGet st qid = some s →
    ∃ s', sessGet (runSubmissions st qid now provs outcome) qid = some s' ∧
      s'.status = s.status ∧ s'.query = s.query ∧
      ∀ p, s'.responses p =
        match outcome p with
        | some t =>
          if p ∈ provs then some (legErrorResponse qid p now t)
          else s.responses p
        | none => s.responses p := by
  intro provs
  induction provs with
  | nil =>
    intro st s h
    refine ⟨s, ?_, rfl, rfl, fun p => ?_⟩
    · simpa [runSubmissions] using h
    · cases outcome p <;> simp
  | cons q rest ih =>
    intro st s h
    cases houtq : outcome q with
    | none =>
      have hstep : runSubmissions st qid now (q :: rest) outcome =
          runSubmissions st qid now rest outcome := by
        unfold runSubmissions
        rw [List.foldl_cons, houtq]
      rw [hstep]
      obtain ⟨s', h1, h2, h3, h4⟩ := ih st s h
      refine ⟨s', h1, h2, h3, fun p => ?_⟩
      cases houtp : outcome p with
      | none => simpa [houtp] using h4 p
      | some t' =>
        have := h4 p
        rw [houtp] at this
        rw [this]
        by_cases hpr : p ∈ rest
        · simp [hpr, List.mem_cons]
        · have hpq : p ≠ q := fun he => by
            rw [he, houtq] at houtp; exact Option.noConfusion houtp
          simp [hpr, List.mem_cons, hpq]
    | some t =>
      have hstep : runSubmissions st qid now (q :: rest) outcome =
          runSubmissions (recordLegFailure st qid q now t) qid now rest outcome := by
        unfold runSubmissions
        rw [List.foldl_cons, houtq]
      have hrec : recordLegFailure st qid q now t =
          sessSet st qid
            { s with responses :=
                setResponse s.responses q (legErrorResponse qid q now t) } := by
        unfold recordLegFailure
        rw [h]
      rw [hstep, hrec]
      obtain ⟨s', h1, h2, h3, h4⟩ :=
        ih (sessSet st qid
            { s with responses :=
                setResponse s.responses q (legErrorResponse qid q now t) })
          { s with responses :=
              setResponse s.responses q (legErrorResponse qid q now t) }
          (sessGet_sessSet_self _ _ _)
      refine ⟨s', h1, h2, h3, fun p => ?_⟩
      have hp := h4 p
      cases houtp : outcome p with
      | none =>
        rw [houtp] at hp
        rw [hp]
        have hpq : p ≠ q := fun he => by
          rw [he, houtq] at houtp; exact Option.noConfusion houtp
        simp [setResponse_ne _ _ _ _ hpq]
      | some t' =>
        rw [houtp] at hp
        rw [hp]
        by_cases hpr : p ∈ rest
        · simp [hpr, List.mem_cons]
        · by_cases hpq : p = q
          · subst hpq
            have ht' : t' = t := by
              rw [houtq] at houtp; exact (Option.some.injEq _ _ ▸ houtp).symm
            simp [hpr, List.mem_cons, ht', setResponse_self]
          · simp [hpr, List.mem_cons, hpq, setResponse_ne _ _ _ _ hpq]

/-- C4 — Per-leg failure containment: for any outcome assignment of the
launch legs, a leg that throws `t` (in tab acquisition, readiness wait or
forwarding) is converted into a `QueryResponse` carrying an error string for
its `(queryId, providerId)` pair — with non-`Error` throwables normalised
to `"Unknown error"` — while every leg whose own steps did not throw is
left untouched (sibling legs are not aborted), and the session value that
`submitQuery`'s promise resolves with is in `in-progress` status no matter
how many legs fail. -/
theorem c4_leg_failure_containment (st : OrchState) (qid text : String)
    (now : Nat) (providers : List ProviderId)
    (outcome : ProviderId → Option Thrown) (p : ProviderId) (t : Thrown)
    (hp : p ∈ providers) (ht : outcome p = some t) :
    (submitQueryStart st qid text now providers).2.status = .inProgress ∧
    (∀ q, (submitQueryStart st qid text now providers).2.responses q = none) ∧
    (∃ s', sessGet (runSubmissions (submitQueryStart st qid text now providers).1
        qid now providers outcome) qid = some s' ∧
      s'.status = .inProgress ∧
      s'.responses p = some (legErrorResponse qid p now t) ∧
      (legErrorResponse qid p now t).error = some (thrownMessage t) ∧
      (∀ q, outcome q = none → s'.responses q = none)) ∧
    thrownMessage .other = "Unknown error" := by
  refine ⟨rfl, fun q => rfl, ?_, rfl⟩
  have hstart : sessGet (submitQueryStart st qid text now providers).1 qid =
      some (mkSession qid text now providers) := sessGet_sessSet_self _ _ _
  obtain ⟨s', h1, h2, h3, h4⟩ :=
    runSubmissions_spec qid now outcome providers _ _ hstart
  refine ⟨s', h1, h2, ?_, rfl, ?_⟩
  · have h5 := h4 p
    rw [ht] at h5
    simpa [hp] using h5
  · intro q hq
    have h6 := h4 q
    rw [hq] at h6
    exact h6

/-- Witness for `c4_leg_failure_containment`: two target providers, the
`chatgpt` leg throws a JavaScript `Error`, the `claude` leg forwards
successfully. -/
theorem c4_leg_failure_containment_witness :
    (submitQueryStart [] "q5" "t" 0 [ProviderId.chatgpt, ProviderId.claude]).2.status =
      .inProgress ∧
    (∀ q, (submitQueryStart [] "q5" "t" 0
        [ProviderId.chatgpt, ProviderId.claude]).2.responses q = none) ∧
    (∃ s', sessGet (runSubmissions
        (submitQueryStart [] "q5" "t" 0 [ProviderId.chatgpt, ProviderId.claude]).1
        "q5" 0 [ProviderId.chatgpt, ProviderId.claude]
        (fun q => if q = ProviderId.chatgpt
          then some (Thrown.jsError "no tab") else none)) "q5" = some s' ∧
      s'.status = .inProgress ∧
      s'.responses ProviderId.chatgpt =
        some (legErrorResponse "q5" ProviderId.chatgpt 0 (Thrown.jsError "no tab")) ∧
      (legErrorResponse "q5" ProviderId.chatgpt 0 (Thrown.jsError "no tab")).error =
        some (thrownMessage (Thrown.jsError "no tab")) ∧
      (∀ q, (fun q => if q = ProviderId.chatgpt
          then some (Thrown.jsError "no tab") else none) q = none →
        s'.responses q = none)) ∧
    thrownMessage .other = "Unknown error" :=
  c4_leg_failure_containment [] "q5" "t" 0
    [ProviderId.chatgpt, ProviderId.claude]
    (fun q => if q = ProviderId.chatgpt
      then some (Thrown.jsError "no tab") else none)
    ProviderId.chatgpt (Thrown.jsError "no tab") (by decide) rfl

/-- C9 — Empty-target edge case: submitting with an empty provider list
creates a session whose `responses` object is empty, and once the (empty)
launch phase settles and the completion check runs, the session's status is
`completed` — the all-received condition holds vacuously and no entry
carries an error. -/
theorem c9_empty_target_completes (st : OrchState) (qid text : String)
    (now : Nat) (outcome : ProviderId → Option Thrown) :
    (∀ q, (submitQueryStart st qid text now []).2.responses q = none) ∧
    (submitQueryStart st qid text now []).2.status = .inProgress ∧
    ∃ s', sessGet (submitQuerySettled st qid text now [] outcome) qid = some s' ∧
      s'.status = .completed ∧ (∀ p, s'.responses p = none) := by
  refine ⟨fun q => rfl, rfl, ?_⟩
  have hsettled : submitQuerySettled st qid text now [] outcome =
      sessSet st qid (completeCheck (mkSession qid text now [])) := by
    unfold submitQuerySettled submitQueryStart runSubmissions checkSessionComplete
    rw [List.foldl_nil]
    simp only [sessGet_sessSet_self, sessSet_sessSet]
  rw [hsettled]
  refine ⟨completeCheck (mkSession qid text now []), sessGet_sessSet_self _ _ _,
    ?_, fun p => ?_⟩
  · rfl
  · rw [completeCheck_responses]
    rfl

/-- C5 — History cap with newest-first order: `saveQueryToHistory` prepends
the new query and truncates to 100 entries; with exactly 100 pre-existing
stored queries the result again has exactly 100 entries, the new query
first and the oldest (last) entry evicted. -/
theorem c5_history_cap (stored : List Query) (q : Query)
    (h : stored.length = 100) :
    saveQueryToHistory stored q = (q :: stored).take 100 ∧
    (saveQueryToHistory stored q).length = 100 ∧
    (saveQueryToHistory stored q).head? = some q ∧
    saveQueryToHistory stored q = q :: stored.dropLast := by
  have hgen : saveQueryToHistory stored q = (q :: stored).take 100 := by
    unfold saveQueryToHistory saveToHistory QUERY_HISTORY
    simp
  have hcons : (q :: stored).take 100 = q :: stored.take 99 :=
    List.take_succ_cons
  refine ⟨hgen, ?_, ?_, ?_⟩
  · rw [hgen, List.length_take, List.length_cons, h]
    simp
  · rw [hgen, hcons]
    rfl
  · rw [hgen, hcons, List.dropLast_eq_take, h]

/-- Witness for `c5_history_cap` on a concrete 100-element history. -/
theorem c5_history_cap_witness :
    saveQueryToHistory (List.replicate 100 ⟨"old", "o", 0, []⟩)
        ⟨"new", "n", 1, [ProviderId.chatgpt]⟩ =
      ((⟨"new", "n", 1, [ProviderId.chatgpt]⟩ : Query) ::
        List.replicate 100 ⟨"old", "o", 0, []⟩).take 100 ∧
    (saveQueryToHistory (List.replicate 100 ⟨"old", "o", 0, []⟩)
        ⟨"new", "n", 1, [ProviderId.chatgpt]⟩).length = 100 ∧
    (saveQueryToHistory (List.replicate 100 ⟨"old", "o", 0, []⟩)
        ⟨"new", "n", 1, [ProviderId.chatgpt]⟩).head? =
      some ⟨"new", "n", 1, [ProviderId.chatgpt]⟩ ∧
    saveQueryToHistory (List.replicate 100 ⟨"old", "o", 0, []⟩)
        ⟨"new", "n", 1, [ProviderId.chatgpt]⟩ =
      (⟨"new", "n", 1, [ProviderId.chatgpt]⟩ : Query) ::
        (List.replicate 100 (⟨"old", "o", 0, []⟩ : Query)).dropLast :=
  c5_history_cap (List.replicate 100 ⟨"old", "o", 0, []⟩)
    ⟨"new", "n", 1, [ProviderId.chatgpt]⟩ (by simp)

/-! ## The endpoint registry (`TabManager`, `src/background/tab-manager.ts`) -/

/-- Embeds `interface ManagedTab` from `tab-manager.ts`. -/
structure ManagedTab where
  tabId : Nat
  providerId : ProviderId
  isReady : Bool
  isLoggedIn : Bool
deriving DecidableEq, Repr

/-- Embeds `this.tabs = new Map<ProviderId, ManagedTab>()`, as an association list
in insertion order. -/
abbrev TabsState := List (ProviderId × ManagedTab)

/-- Embeds `this.tabs.get(providerId)`. -/
def tabGet (st : TabsState) (p : ProviderId) : Option ManagedTab :=
  (st.find? (fun e => e.1 = p)).map (·.2)

/-- Embeds `this.tabs.set(providerId, tab)`. -/
def tabSet : TabsState → ProviderId → ManagedTab → TabsState
  | [], p, v => [(p, v)]
  | e :: rest, p, v =>
    if e.1 = p then (p, v) :: rest else e :: tabSet rest p v

/-- Embeds `this.tabs.delete(providerId)`. -/
def tabDelete : TabsState → ProviderId → TabsState
  | [], _ => []
  | e :: rest, p => if e.1 = p then rest else e :: tabDelete rest p

/-- Embeds `TabManager.onTabRemoved(tabId)`: walk the map in insertion order and
delete the first tracked entry whose stored tab id equals the removed one
(`break` after the first hit). -/
def onTabRemoved (st : TabsState) (tabId : Nat) : TabsState :=
  match st with
  | [] => []
  | e :: rest =>
    if e.2.tabId = tabId then rest else e :: onTabRemoved rest tabId

/-- The environment `ensureProviderTab` observes through the Chrome tab
APIs during one call, passed in as an explicit oracle:

* `tabExists i` — whether `chrome.tabs.get(i)` resolves (the liveness
  check; `false` means it throws);
* `queryResult` — the `chrome.tabs.query({url: config.urlPatterns})`
  result, as the optional `id` field of each returned tab;
* `createdTabId` — the optional `id` of the tab `chrome.tabs.create`
  returns;
* `pingResult` — the `PING` reply used by `pingTab` (`none` when the send
  throws or the reply is falsy).
-/
structure TabEnv where
  tabExists : Nat → Bool
  queryResult : List (Option Nat)
  createdTabId : Option Nat
  pingResult : Option (Bool × Bool)

/-- The provider id as it appears interpolated into error messages. -/
def providerIdString : ProviderId → String
  | .chatgpt => "chatgpt"
  | .claude => "claude"
  | .gemini => "gemini"

/-- Embeds `TabManager.pingTab(tabId, providerId)`: on a truthy reply, update the
tracked entry's readiness flags in place; on a thrown or falsy reply do
nothing.  (The tab id argument is only used for the message send, which is
not modelled.) -/
def pingTab (env : TabEnv) (st : TabsState) (p : ProviderId) : TabsState :=
  match env.pingResult with
  | some (r, l) =>
    match tabGet st p with
    | some mt => tabSet st p { mt with isReady := r, isLoggedIn := l }
    | none => st
  | none => st

/-- The `chrome.tabs.create` tail of `ensureProviderTab` (both the
`newChat` and the default path end in the same code shape): a created tab
with a falsy `id` (`undefined` or `0`) is a failure, otherwise the new tab
is tracked as not-ready/not-logged-in.  The result triple is
`(tabId, new map state, created-a-new-tab flag)`; the flag instruments the
effectful `chrome.tabs.create` call for the theorems below. -/
def createTab (env : TabEnv) (st : TabsState) (p : ProviderId) :
    Except String (Nat × TabsState × Bool) :=
  match env.createdTabId with
  | some i =>
    if i = 0 then .error ("Failed to create tab for " ++ providerIdString p)
    else .ok (i, tabSet st p ⟨i, p, false, false⟩, true)
  | none => .error ("Failed to create tab for " ++ providerIdString p)

/-- The search-then-create tail of the default (`newChat = false`) path of
`ensureProviderTab`: adopt the first queried tab when its `id` is truthy
(track it, activate it, ping it), otherwise create a new background tab. -/
def adoptOrCreate (env : TabEnv) (st : TabsState) (p : ProviderId) :
    Except String (Nat × TabsState × Bool) :=
  match env.queryResult with
  | some i :: _ =>
    if i = 0 then createTab env st p
    else
      .ok (i, pingTab env (tabSet st p ⟨i, p, false, false⟩) p, false)
  | none :: _ => createTab env st p
  | [] => createTab env st p

/-- Embeds `TabManager.ensureProviderTab(providerId, newChat)`.

* `newChat` path: reuse a tracked, still-existing tab by navigating it to
  the new-chat address (marking it not-ready), else drop the stale entry
  and create a fresh tab.
* default path: reuse a tracked, still-existing tab as is; else drop the
  stale entry, then adopt a matching open tab or create a new one.

Navigation (`chrome.tabs.update`) and message sends are assumed to
resolve; their effects live outside the registry state. -/
def ensureProviderTab (env : TabEnv) (st : TabsState) (p : ProviderId)
    (newChat : Bool) : Except String (Nat × TabsState × Bool) :=
  if newChat then
    match tabGet st p with
    | some mt =>
      if env.tabExists mt.tabId then
        .ok (mt.tabId, tabSet st p { mt with isReady := false }, false)
      else createTab env (tabDelete st p) p
    | none => createTab env st p
  else
    match tabGet st p with
    | some mt =>
      if env.tabExists mt.tabId then .ok (mt.tabId, st, false)
      else adoptOrCreate env (tabDelete st p) p
    | none => adoptOrCreate env st p

theorem tabGet_tabSet_self (st : TabsState) (p : ProviderId) (v : ManagedTab) :
    tabGet (tabSet st p v) p = some v := by
  induction st with
  | nil => simp [tabSet, tabGet, List.find?]
  | cons e rest ih =>
    by_cases h : e.1 = p
    · simp [tabSet, h, tabGet, List.find?]
    · simp only [tabSet, if_neg h]
      simpa [tabGet, List.find?, h] using ih

/-- Any successful `ensureProviderTab` call leaves the provider tracked
with exactly the returned tab id. -/
theorem ensureProviderTab_tracks (env : TabEnv) (st : TabsState)
    (p : ProviderId) (newChat : Bool) (i : Nat) (st' : TabsState) (c : Bool)
    (h : ensureProviderTab env st p newChat = .ok (i, st', c)) :
    ∃ mt, tabGet st' p = some mt ∧ mt.tabId = i := by
  have hcreate : ∀ (st0 : TabsState),
      createTab env st0 p = .ok (i, st', c) →
      ∃ mt, tabGet st' p = some mt ∧ mt.tabId = i := by
    intro st0 hc
    unfold createTab at hc
    cases hid : env.createdTabId with
    | none =>
      rw [hid] at hc
      have hc' : (Except.error ("Failed to create tab for " ++ providerIdString p) :
          Except String (Nat × TabsState × Bool)) = .ok (i, st', c) := hc
      exact Except.noConfusion hc'
    | some j =>
      rw [hid] at hc
      have hc' : (if j = 0 then
            (Except.error ("Failed to create tab for " ++ providerIdString p) :
              Except String (Nat × TabsState × Bool))
          else .ok (j, tabSet st0 p ⟨j, p, false, false⟩, true)) =
          .ok (i, st', c) := hc
      by_cases hj : j = 0
      · rw [if_pos hj] at hc'
        exact Except.noConfusion hc'
      · rw [if_neg hj] at hc'
        have h12 := Except.ok.inj hc'
        have h1 : j = i := congrArg Prod.fst h12
        have h2 : tabSet st0 p ⟨j, p, false, false⟩ = st' :=
          congrArg (fun x => x.2.1) h12
        subst h1
        rw [← h2]
        exact ⟨_, tabGet_tabSet_self _ _ _, rfl⟩
  have hadopt : ∀ (st0 : TabsState),
      adoptOrCreate env st0 p = .ok (i, st', c) →
      ∃ mt, tabGet st' p = some mt ∧ mt.tabId = i := by
    intro st0 ha
    unfold adoptOrCreate at ha
    cases hq : env.queryResult with
    | nil => rw [hq] at ha; exact hcreate st0 ha
    | cons hd tl =>
      rw [hq] at ha
      cases hd with
      | none => exact hcreate st0 ha
      | some j =>
        have ha' : (if j = 0 then createTab env st0 p
            else .ok (j, pingTab env (tabSet st0 p ⟨j, p, false, false⟩) p,
              false)) = .ok (i, st', c) := ha
        by_cases hj : j = 0
        · rw [if_pos hj] at ha'
          exact hcreate st0 ha'
        · rw [if_neg hj] at ha'
          have h12 := Except.ok.inj ha'
          have h1 : j = i := congrArg Prod.fst h12
          have h2 : pingTab env (tabSet st0 p ⟨j, p, false, false⟩) p = st' :=
            congrArg (fun x => x.2.1) h12
          subst h1
          rw [← h2]
          unfold pingTab
          cases hping : env.pingResult with
          | none => exact ⟨_, tabGet_tabSet_self _ _ _, rfl⟩
          | some rl =>
            obtain ⟨r, l⟩ := rl
            rw [tabGet_tabSet_self]
            exact ⟨_, tabGet_tabSet_self _ _ _, rfl⟩
  unfold ensureProviderTab at h
  cases newChat with
  | true =>
    rw [if_pos rfl] at h
    cases hg : tabGet st p with
    | some mt =>
      rw [hg] at h
      have h' : (if env.tabExists mt.tabId = true then
            (Except.ok (mt.tabId, tabSet st p { mt with isReady := false },
              false) : Except String (Nat × TabsState × Bool))
          else createTab env (tabDelete st p) p) = .ok (i, st', c) := h
      by_cases hex : env.tabExists mt.tabId = true
      · rw [if_pos hex] at h'
        have h12 := Except.ok.inj h'
        have h1 : mt.tabId = i := congrArg Prod.fst h12
        have h2 : tabSet st p { mt with isReady := false } = st' :=
          congrArg (fun x => x.2.1) h12
        rw [← h2]
        exact ⟨_, tabGet_tabSet_self _ _ _, h1⟩
      · rw [if_neg hex] at h'
        exact hcreate _ h'
    | none =>
      rw [hg] at h
      exact hcreate _ h
  | false =>
    rw [if_neg (by simp)] at h
    cases hg : tabGet st p with
    | some mt =>
      rw [hg] at h
      have h' : (if env.tabExists mt.tabId = true then
            (Except.ok (mt.tabId, st, false) :
              Except String (Nat × TabsState × Bool))
          else adoptOrCreate env (tabDelete st p) p) = .ok (i, st', c) := h
      by_cases hex : env.tabExists mt.tabId = true
      · rw [if_pos hex] at h'
        have h12 := Except.ok.inj h'
        have h1 : mt.tabId = i := congrArg Prod.fst h12
        have h2 : st = st' := congrArg (fun x => x.2.1) h12
        rw [← h2]
        exact ⟨mt, hg, h1⟩
      · rw [if_neg hex] at h'
        exact hadopt _ h'
    | none =>
      rw [hg] at h
      exact hadopt _ h

/-- The tracked-and-alive fast path of the default `ensureProviderTab`:
return the tracked tab id with no state change and no tab creation. -/
theorem ensureProviderTab_hit (env : TabEnv) (st : TabsState)
    (p : ProviderId) (mt : ManagedTab) (hget : tabGet st p = some mt)
    (hex : env.tabExists mt.tabId = true) :
    ensureProviderTab env st p false = .ok (mt.tabId, st, false) := by
  unfold ensureProviderTab
  rw [if_neg (by simp), hget]
  exact if_pos hex

/-- C7 — Endpoint reuse: if `ensureProviderTab(p, false)` succeeds with tab
id `i` and that tab still resolves when the next call runs, a second
`ensureProviderTab(p, false)` call returns the very same id, leaves the
registry untouched, and does not create a second tab (created-flag
`false`). -/
theorem c7_endpoint_reuse (env env2 : TabEnv) (st : TabsState)
    (p : ProviderId) (i : Nat) (st' : TabsState) (c : Bool)
    (h : ensureProviderTab env st p false = .ok (i, st', c))
    (halive : env2.tabExists i = true) :
    ensureProviderTab env2 st' p false = .ok (i, st', false) := by
  obtain ⟨mt, hget, htid⟩ := ensureProviderTab_tracks env st p false i st' c h
  have hex : env2.tabExists mt.tabId = true := by rw [htid]; exact halive
  rw [ensureProviderTab_hit env2 st' p mt hget hex, htid]

/-- Witness for `c7_endpoint_reuse`: a first call that creates tab 5 for
`claude`, then a second call against an environment in which tab 5 still
resolves. -/
theorem c7_endpoint_reuse_witness :
    ensureProviderTab ⟨fun _ => true, [], some 5, none⟩
      [(ProviderId.claude, ⟨5, ProviderId.claude, false, false⟩)]
      ProviderId.claude false =
      .ok (5, [(ProviderId.claude, ⟨5, ProviderId.claude, false, false⟩)],
        false) :=
  c7_endpoint_reuse ⟨fun _ => true, [], some 5, none⟩
    ⟨fun _ => true, [], some 5, none⟩ [] ProviderId.claude 5
    [(ProviderId.claude, ⟨5, ProviderId.claude, false, false⟩)] true
    rfl rfl

/-- C10 — Context-closed frame property: `onTabRemoved` either leaves the
registry unchanged (when no tracked entry stores the removed tab id) or
removes exactly the first tracked entry storing that id, leaving every
other entry — in particular every entry whose stored handle differs —
unchanged and in place.  The function is total, so no error is raised. -/
theorem c10_onTabRemoved_frame (st : TabsState) (t : Nat) :
    ((∀ e ∈ st, e.2.tabId ≠ t) ∧ onTabRemoved st t = st) ∨
    (∃ pre e suf, st = pre ++ e :: suf ∧ e.2.tabId = t ∧
      (∀ x ∈ pre, x.2.tabId ≠ t) ∧ onTabRemoved st t = pre ++ suf) := by
  induction st with
  | nil => left; exact ⟨by simp, rfl⟩
  | cons e rest ih =>
    by_cases he : e.2.tabId = t
    · right
      exact ⟨[], e, rest, by simp, he, by simp, by simp [onTabRemoved, he]⟩
    · rcases ih with ⟨hall, heq⟩ | ⟨pre, f, suf, hsplit, hf, hpre, heq⟩
      · left
        refine ⟨?_, by simp [onTabRemoved, he, heq]⟩
        intro x hx
        rcases List.mem_cons.mp hx with rfl | hx'
        · exact he
        · exact hall x hx'
      · right
        refine ⟨e :: pre, f, suf, by rw [hsplit]; rfl, hf, ?_, ?_⟩
        · intro x hx
          rcases List.mem_cons.mp hx with rfl | hx'
          · exact he
          · exact hpre x hx'
        · simp [onTabRemoved, he, heq]

/-! ## URL-pattern matching (`getProviderFromUrl`, `TabManager.onTabUpdated`)

Both call sites compile a declared pattern to the regular expression
`new RegExp('^' + pattern.replace(/\*/g, '.*') + '$')` and test the whole
address against it.  Because no other character is escaped, in the compiled
regex `*` stands for any substring **and `.` matches any single
character**; every remaining character of the declared patterns matches
itself.  `globMatch true` below is this compiled-regex semantics;
`globMatch false` keeps `.` literal and is the specification's stated
semantics ("`*` = any substring", every other character itself). -/

def globMatch (dotAny : Bool) : List Char → List Char → Bool
  | [], s => s.isEmpty
  | c :: ps, s =>
    if c = '*' then s.tails.any (fun t => globMatch dotAny ps t)
    else if dotAny = true ∧ c = '.' then
      match s with
      | [] => false
      | _ :: s1 => globMatch dotAny ps s1
    else
      match s with
      | [] => false
      | c1 :: s1 => c == c1 && globMatch dotAny ps s1

/-- Declarative counterpart of `globMatch`: `*` consumes any substring,
`.` consumes one arbitrary character when `dotAny` is set, every other
pattern character consumes exactly itself. -/
inductive Glob (dotAny : Bool) : List Char → List Char → Prop where
  | nil : Glob dotAny [] []
  | star_skip {ps s} : Glob dotAny ps s → Glob dotAny ('*' :: ps) s
  | star_cons {ps c s} : Glob dotAny ('*' :: ps) s →
      Glob dotAny ('*' :: ps) (c :: s)
  | dot {ps c s} : dotAny = true → Glob dotAny ps s →
      Glob dotAny ('.' :: ps) (c :: s)
  | lit {ps c s} : c ≠ '*' → ¬(dotAny = true ∧ c = '.') → Glob dotAny ps s →
      Glob dotAny (c :: ps) (c :: s)

theorem Glob_star_suffix (d : Bool) (ps : List Char) :
    ∀ s, Glob d ('*' :: ps) s → ∃ t, t <:+ s ∧ Glob d ps t := by
  intro s
  induction s with
  | nil =>
    intro h
    cases h with
    | star_skip h' => exact ⟨[], List.suffix_refl _, h'⟩
  | cons c s1 ih =>
    intro h
    cases h with
    | star_skip h' => exact ⟨c :: s1, List.suffix_refl _, h'⟩
    | star_cons h' =>
      obtain ⟨t, ht, hg⟩ := ih h'
      exact ⟨t, ht.trans (List.suffix_cons c s1), hg⟩
    | lit h1 _ _ => exact absurd rfl h1

theorem Glob_star_of_suffix (d : Bool) (ps s t : List Char)
    (hsuf : t <:+ s) (hg : Glob d ps t) : Glob d ('*' :: ps) s := by
  obtain ⟨pre, rfl⟩ := hsuf
  induction pre with
  | nil => exact Glob.star_skip hg
  | cons c pre' ih => exact Glob.star_cons ih

/-- The executable matcher decides exactly the declarative relation. -/
theorem globMatch_iff (d : Bool) : ∀ (ps s : List Char),
    globMatch d ps s = true ↔ Glob d ps s := by
  intro ps
  induction ps with
  | nil =>
    intro s
    constructor
    · intro h
      have hs : s = [] := by simpa [globMatch, List.isEmpty_iff] using h
      rw [hs]; exact Glob.nil
    · intro h
      cases h
      simp [globMatch]
  | cons c ps ih =>
    intro s
    by_cases hstar : c = '*'
    · subst hstar
      have hred : globMatch d ('*' :: ps) s =
          s.tails.any (fun t => globMatch d ps t) := by
        simp [globMatch]
      rw [hred, List.any_eq_true]
      constructor
      · rintro ⟨t, htails, hm⟩
        exact Glob_star_of_suffix d ps s t ((List.mem_tails _ _).mp htails)
          ((ih t).mp hm)
      · intro h
        obtain ⟨t, hsuf, hg⟩ := Glob_star_suffix d ps s h
        exact ⟨t, (List.mem_tails _ _).mpr hsuf, (ih t).mpr hg⟩
    · by_cases hdot : d = true ∧ c = '.'
      · obtain ⟨hd, hc⟩ := hdot
        subst hd; subst hc
        cases s with
        | nil =>
          constructor
          · intro h; simp [globMatch] at h
          · intro h; cases h
        | cons c1 s1 =>
          have hred : globMatch true ('.' :: ps) (c1 :: s1) =
              globMatch true ps s1 := by
            simp [globMatch]
          rw [hred]
          constructor
          · intro h; exact Glob.dot rfl ((ih s1).mp h)
          · intro h
            cases h with
            | dot _ h' => exact (ih s1).mpr h'
            | lit _ hnd _ => exact absurd ⟨rfl, rfl⟩ hnd
      · cases s with
        | nil =>
          constructor
          · intro h; simp [globMatch, hstar, hdot] at h
          · intro h
            cases h with
            | star_skip _ => exact absurd rfl hstar
        | cons c1 s1 =>
          have hred : globMatch d (c :: ps) (c1 :: s1) =
              (c == c1 && globMatch d ps s1) := by
            simp [globMatch, hstar, hdot]
          rw [hred, Bool.and_eq_true, beq_iff_eq]
          constructor
          · rintro ⟨rfl, hm⟩
            exact Glob.lit hstar hdot ((ih s1).mp hm)
          · intro h
            cases h with
            | star_skip _ => exact absurd rfl hstar
            | star_cons _ => exact absurd rfl hstar
            | dot hd _ => exact absurd ⟨hd, rfl⟩ hdot
            | lit _ _ h' => exact ⟨rfl, (ih s1).mpr h'⟩

/-- Embeds `interface ProviderConfig` (the fields the matcher consumes). -/
structure ProviderConfig where
  id : ProviderId
  name : String
  baseUrl : String
  urlPatterns : List String
  iconUrl : String
  color : String
deriving DecidableEq, Repr

/-- The static `PROVIDERS` directory from `src/shared/constants/providers.ts`
(the variant `getProviderFromUrl` lives in). -/
def PROVIDERS : ProviderId → ProviderConfig
  | .chatgpt =>
    ⟨.chatgpt, "ChatGPT", "https://chatgpt.com",
      ["https://chat.openai.com/*", "https://chatgpt.com/*"],
      "/icons/chatgpt.svg", "#10a37f"⟩
  | .claude =>
    ⟨.claude, "Claude", "https://claude.ai",
      ["https://claude.ai/*"],
      "/icons/claude.svg", "#d97706"⟩
  | .gemini =>
    ⟨.gemini, "Gemini", "https://gemini.google.com/app",
      ["https://gemini.google.com/*"],
      "/icons/gemini.svg", "#4285f4"⟩

/-- One pattern test,
`new RegExp('^' + pattern.replace(/\*/g, '.*') + '$').test(url)`:
whole-address match under the compiled-regex semantics (anchored, `*` any
substring, unescaped `.` any single character, other characters literal). -/
def patternTest (pattern url : String) : Bool :=
  globMatch true pattern.data url.data

/-- The inner loop of `getProviderFromUrl` (and of
`TabManager.onTabUpdated`): the address matches the provider when some
declared pattern's compiled regex accepts it. -/
def matchesProvider (p : ProviderId) (url : String) : Bool :=
  (PROVIDERS p).urlPatterns.any (fun pat => patternTest pat url)

/-- Embeds `getProviderFromUrl(url)` from `src/shared/constants/providers.ts`:
first provider (in `PROVIDERS` declaration order) one of whose patterns
matches, else `null`. -/
def getProviderFromUrl (url : String) : Option ProviderId :=
  PROVIDER_IDS.find? (fun p => matchesProvider p url)

/-- C6 — URL-pattern matching, as corrected: an address matches a provider
iff some declared pattern matches the whole address after anchoring, where
`*` stands for any substring, **an unescaped `.` matches any single
character** (the pattern is not regex-escaped), and the remaining
characters match only themselves; `getProviderFromUrl` returns only
matching providers; and the spec's two examples behave as stated. -/
theorem c6_pattern_matching :
    (∀ p url, matchesProvider p url = true ↔
      ∃ pat ∈ (PROVIDERS p).urlPatterns, Glob true pat.data url.data) ∧
    (∀ url p, getProviderFromUrl url = some p →
      matchesProvider p url = true) ∧
    patternTest "https://chat.example.com/c/*"
      "https://chat.example.com/c/abc123" = true ∧
    patternTest "https://chat.example.com/c/*"
      "https://chat.example.com/settings" = false := by
  refine ⟨?_, ?_, by decide, by decide⟩
  · intro p url
    unfold matchesProvider patternTest
    rw [List.any_eq_true]
    constructor
    · rintro ⟨pat, hmem, hm⟩
      exact ⟨pat, hmem, (globMatch_iff true _ _).mp hm⟩
    · rintro ⟨pat, hmem, hg⟩
      exact ⟨pat, hmem, (globMatch_iff true _ _).mpr hg⟩
  · intro url p h
    unfold getProviderFromUrl at h
    have h2 := List.find?_some h
    exact h2

/-- C6 counterexample to the claim as stated ("every other pattern
character matches only itself literally"): the unescaped `.` of the
declared pattern `https://chat.openai.com/*` matches the letter `X`, so
the address `https://chatXopenai.com/x` matches the `chatgpt` provider in
the code although no declared pattern matches it under the spec's literal
semantics (`Glob false`). -/
theorem c6_counterexample :
    matchesProvider ProviderId.chatgpt "https://chatXopenai.com/x" = true ∧
    ¬ ∃ pat ∈ (PROVIDERS ProviderId.chatgpt).urlPatterns,
        Glob false pat.data "https://chatXopenai.com/x".data := by
  constructor
  · decide
  · rintro ⟨pat, hmem, hg⟩
    have hb : globMatch false pat.data "https://chatXopenai.com/x".data = true :=
      (globMatch_iff false _ _).mpr hg
    have hpat : pat = "https://chat.openai.com/*" ∨
        pat = "https://chatgpt.com/*" := by
      simpa [PROVIDERS] using hmem
    rcases hpat with rfl | rfl <;> revert hb <;> decide
